import Mathlib

/-!
Verification of the Conway's Game of Life simulator (`src/main.rs`).

The Rust program represents a board as `Vec<Vec<bool>>` (a list of rows,
each row a list of cells, `board[y][x]`).  We embed it as
`List (List Bool)`.  Machine integers that matter (`u32` population
counter) are modelled as `Nat` with explicit reduction modulo `2 ^ 32`;
`usize` indices and the generation counter are modelled as `Nat`
(the quantities involved never approach `2 ^ 64`).
-/

namespace Conway

/-- A board is a list of rows, each row a list of cells (`Vec<Vec<bool>>`);
`board[y][x]` is row `y`, column `x`. -/
abbrev Grid := List (List Bool)

/-- The grid-shape invariant: the board has exactly `height` rows and every
row has exactly `width` cells. -/
def Shaped (width height : Nat) (b : Grid) : Prop :=
  b.length = height ∧ ∀ r ∈ b, r.length = width

instance (width height : Nat) (b : Grid) : Decidable (Shaped width height b) := by
  unfold Shaped; infer_instance

/-- In-range cell read `board[y][x]`, total with default `false`; every place
it is used in the embedding corresponds to an in-bounds access in the Rust
source (the out-of-bounds panic behaviour is modelled separately by the
checked variants below). -/
def cell (b : Grid) (y x : Nat) : Bool :=
  (b.getD y []).getD x false

/-- The fingerprint used as the history key:
`board.iter().flatten().cloned().collect::<Vec<bool>>()` — the row-major
flattening of the cell matrix.  Note that the dimensions are not part of
the key. -/
def fingerprint (b : Grid) : List Bool :=
  b.flatten

/-- The history map from fingerprints to generation indices.  The Rust
program uses `AHashMap<Vec<bool>, usize>`; we model it as an association
list with unique keys maintained by `histInsert`. -/
abbrev History := List (List Bool × Nat)

/-- Lookup of a key in the history (`HashMap` lookup: the value stored for
the key, if present). -/
def histLookup (h : History) (k : List Bool) : Option Nat :=
  match h with
  | [] => none
  | (k', v') :: rest => if k' = k then some v' else histLookup rest k

/-- `HashMap::insert` semantics: stores `v` under `k`, replacing any value
already present, and returns the previously stored value (`None` if the key
was absent). -/
def histInsert (h : History) (k : List Bool) (v : Nat) : Option Nat × History :=
  match h with
  | [] => (none, [(k, v)])
  | (k', v') :: rest =>
    if k' = k then (some v', (k, v) :: rest)
    else
      let r := histInsert rest k v
      (r.1, (k', v') :: r.2)

/-- `detect_loop`: inserts the board's fingerprint with the current
generation into the history and returns the previously stored generation
(the Rust code is `history.insert(fp, generation).and_then(Some)`, and
`x.and_then(Some)` is the identity on `Option`).  Returns both the
`Option<usize>` result and the updated history (which Rust mutates in
place). -/
def detect_loop (b : Grid) (generation : Nat) (history : History) :
    Option Nat × History :=
  histInsert history (fingerprint b) generation

/-- `random_board`: builds an all-false `height × width` board, then for
`x in 0..width`, `y in 0..height` sets `board[y][x]` when `fastrand::bool()`
returns true.  The thread-local random source is injected as `rng`, indexed
by the order of the calls in the loop nest (`x` outer, `y` inner), so the
call deciding cell `(y, x)` is call number `x * height + y`. -/
def random_board (width height : Nat) (rng : Nat → Bool) : Grid :=
  (List.range height).map fun y =>
    (List.range width).map fun x => rng (x * height + y)

/-- The eight Moore-neighborhood offsets, as `(y_offset, x_offset)` pairs
(`NEIGHBOR_OFFSETS` in the source). -/
def NEIGHBOR_OFFSETS : List (Int × Int) :=
  [(-1, -1), (-1, 0), (-1, 1),
   ( 0, -1),          ( 0, 1),
   ( 1, -1), ( 1, 0), ( 1, 1)]

/-- The in-bounds test of the neighbor loop:
`y_pos >= 0 && x_pos >= 0 && y_pos < height as isize && x_pos < width as isize`
for the offset position `(y_pos, x_pos) = (y + off.0, x + off.1)`. -/
def offsetInRange (height width : Nat) (y x : Nat) (off : Int × Int) : Prop :=
  0 ≤ (y : Int) + off.1 ∧ 0 ≤ (x : Int) + off.2
    ∧ (y : Int) + off.1 < (height : Int) ∧ (x : Int) + off.2 < (width : Int)

instance (height width y x : Nat) (off : Int × Int) :
    Decidable (offsetInRange height width y x off) := by
  unfold offsetInRange; infer_instance

/-- The full condition under which the neighbor loop of `iterate_board`
counts an offset: the offset position is in range and
`board[y_pos][x_pos]` holds. -/
def neighborAlive (b : Grid) (height width : Nat) (y x : Nat)
    (off : Int × Int) : Prop :=
  offsetInRange height width y x off
    ∧ cell b ((y : Int) + off.1).toNat ((x : Int) + off.2).toNat

instance (b : Grid) (height width y x : Nat) (off : Int × Int) :
    Decidable (neighborAlive b height width y x off) := by
  unfold neighborAlive; infer_instance

/-- The neighbor-counting loop of `iterate_board`: for each of the eight
offsets, increments the count when the offset position is in range and the
cell there is alive.  `height` and `width` are the values the caller
computed (`board.len()` and `board[0].len()`). -/
def neighborCount (b : Grid) (height width : Nat) (y x : Nat) : Nat :=
  NEIGHBOR_OFFSETS.foldl
    (fun n off => if neighborAlive b height width y x off then n + 1 else n)
    0

/-- The number of candidate neighbors of cell `(y, x)`: the Moore offsets
whose position lies inside the grid bounds (the spec's notion used by the
boundary rule; out-of-range offsets are not candidates). -/
def candidateCount (height width : Nat) (y x : Nat) : Nat :=
  NEIGHBOR_OFFSETS.countP fun off => decide (offsetInRange height width y x off)

/-- `iterate_board`: reads `height = board.len()` and `width = board[0].len()`,
builds a fresh all-false board of the same dimensions, and for every cell
sets it alive when `board[y][x] && neighbors > 1 && neighbors < 4`, or
`!board[y][x] && neighbors == 3`.  (Rust mutates `board` via
`clone_from`; the embedding returns the successor.) -/
def iterate_board (b : Grid) : Grid :=
  let height := b.length
  let width := (b.getD 0 []).length
  (List.range height).map fun y =>
    (List.range width).map fun x =>
      let neighbors := neighborCount b height width y x
      if cell b y x ∧ neighbors > 1 ∧ neighbors < 4 then true
      else if (¬ cell b y x) ∧ neighbors = 3 then true
      else false

/-- The four-glyph mapping of `print_board` for a paired row: keyed by
`(board[y][x], board[y + 1][x])`. -/
def pairGlyph : Bool → Bool → Char
  | true, true => '█'
  | true, false => '▀'
  | false, true => '▄'
  | false, false => ' '

/-- The two-glyph mapping of `print_board` for a final unpaired row. -/
def soloGlyph : Bool → Char
  | true => '▀'
  | false => ' '

/-- The characters `print_board` pushes for the row pair starting at row
`y`: for `x in 0..board[0].len()`, the paired glyph when `y + 1 ≠ board.len()`
and the solo glyph otherwise. -/
def rowChars (b : Grid) (y : Nat) : List Char :=
  (List.range (b.getD 0 []).length).map fun x =>
    if y + 1 ≠ b.length then pairGlyph (cell b y x) (cell b (y + 1) x)
    else soloGlyph (cell b y x)

/-- The buffer `print_board` accumulates over the first `n` rows: for
`y in 0..n`, rows with `y % 2 == 0` contribute a `'\n'` separator (when
`y > 0`) followed by their glyph characters; odd rows contribute nothing. -/
def printBuffer (b : Grid) : Nat → List Char
  | 0 => []
  | n + 1 =>
    printBuffer b n ++
      (if n % 2 = 0 then (if n > 0 then ['\n'] else []) ++ rowChars b n
       else [])

/-- `print_board`: the complete text buffer built before the single queued
write (the loop runs over `y in 0..board.len()`). -/
def print_board (b : Grid) : List Char :=
  printBuffer b b.length

/-- The population count of `print_stats`: a `u32` accumulator incremented
once per alive cell, scanning `y in 0..board.len()`, `x in 0..board[0].len()`;
the `u32` increment is modelled with wraparound modulo `2 ^ 32`
(release-profile overflow semantics). -/
def statsPopulation (b : Grid) : Nat :=
  (List.range b.length).foldl
    (fun pop y =>
      (List.range (b.getD 0 []).length).foldl
        (fun pop x => if cell b y x then (pop + 1) % 2 ^ 32 else pop)
        pop)
    0

/-- The two lines `print_stats` queues, built from the generation passed in
and the computed population; the board and generation are taken by
(immutable) reference and are not modified. -/
def print_stats (b : Grid) (generation : Nat) : List String :=
  ["Generation: " ++ toString generation,
   "Population: " ++ toString (statsPopulation b)]

/-- `sleep_until`: `deadline.checked_duration_since(now)` — `some` of the
difference when `now ≤ deadline`, `none` otherwise (no negative `Duration`
can be formed). -/
def checked_duration_since (deadline now : Nat) : Option Nat :=
  if now ≤ deadline then some (deadline - now) else none

/-- The instant at which `sleep_until(deadline)` returns, when called at
instant `now`: if a delay was formed the thread sleeps for it (plus an
arbitrary non-negative `lateness` the OS may add; `thread::sleep` never
wakes early), otherwise it does not sleep at all. -/
def sleep_until (deadline now lateness : Nat) : Nat :=
  match checked_duration_since deadline now with
  | some delay => now + delay + lateness
  | none => now

/-- The deadline update at the end of each paced iteration:
`deadline += frame_time`. -/
def next_deadline (deadline frame_time : Nat) : Nat :=
  deadline + frame_time

/-- The deadline in effect after `n` paced iterations starting from the
initial deadline `d0`. -/
def deadline_after (d0 frame_time : Nat) : Nat → Nat
  | 0 => d0
  | n + 1 => next_deadline (deadline_after d0 frame_time n) frame_time

/-- The mutable state of the main loop: the board, the generation counter
and the history map. -/
structure SimState where
  board : Grid
  generation : Nat
  history : History
deriving DecidableEq

/-- The outcome of one main-loop iteration: either the next state, or the
loop `break`s (non-infinite mode, reporting the loop-start generation). -/
inductive StepResult where
  | next (s : SimState) : StepResult
  | halt (loop_start : Nat) : StepResult
deriving DecidableEq

/-- One iteration of the `match detect_loop(...)` arm of the main loop:
on `Some(loop_start)` with `--infinite`, the board is reseeded via
`random_board(width, height)`, the generation is reset to `0` and the
history is replaced by a fresh empty map; without `--infinite` the loop
breaks.  On `None` the board is advanced and the generation incremented
(the history keeps the insertion `detect_loop` performed). -/
def sched_step (infinite : Bool) (width height : Nat) (rng : Nat → Bool)
    (s : SimState) : StepResult :=
  match detect_loop s.board s.generation s.history with
  | (some loop_start, _) =>
    if infinite then
      .next ⟨random_board width height rng, 0, []⟩
    else
      .halt loop_start
  | (none, h') =>
    .next ⟨iterate_board s.board, s.generation + 1, h'⟩

/-- The 5×5 vertical blinker of the end-to-end scenario: cells
`(x, y) = (2,1), (2,2), (2,3)` alive (`board[y][x]`, so rows 1–3 have
column 2 set). -/
def blinkerV : Grid :=
  [[false, false, false, false, false],
   [false, false, true,  false, false],
   [false, false, true,  false, false],
   [false, false, true,  false, false],
   [false, false, false, false, false]]

/-- The 5×5 horizontal blinker: cells `(x, y) = (1,2), (2,2), (3,2)`
alive. -/
def blinkerH : Grid :=
  [[false, false, false, false, false],
   [false, false, false, false, false],
   [false, true,  true,  true,  false],
   [false, false, false, false, false],
   [false, false, false, false, false]]

/-- The number of alive cells of a grid (the quantity the Population line
is claimed to report). -/
def aliveCount (b : Grid) : Nat :=
  b.flatten.count true

/-- Joins rendered lines with single `'\n'` separators (the layout of the
render buffer: no trailing newline). -/
def joinLines : List (List Char) → List Char
  | [] => []
  | [l] => l
  | l :: l' :: ls => l ++ '\n' :: joinLines (l' :: ls)

/-- Checked cell read `board[y][x]`: `none` models the Rust index panic
when either index is out of bounds. -/
def cellChk (b : Grid) (y x : Nat) : Option Bool := do
  let row ← b[y]?
  row[x]?

/-- `neighborCount` with every index access checked: the cell read behind
the in-range guard may still fail on a ragged board. -/
def neighborCountChk (b : Grid) (height width : Nat) (y x : Nat) :
    Option Nat :=
  NEIGHBOR_OFFSETS.foldlM
    (fun n off =>
      if offsetInRange height width y x off then do
        let c ← cellChk b ((y : Int) + off.1).toNat ((x : Int) + off.2).toNat
        pure (if c then n + 1 else n)
      else pure n)
    0

/-- `iterate_board` with every index access checked: `board[0]` is read
unconditionally to obtain the width (the source's `board[0].len()`), then
every cell and neighbor read is checked. -/
def iterate_boardChk (b : Grid) : Option Grid := do
  let height := b.length
  let row0 ← b[0]?
  let width := row0.length
  (List.range height).mapM fun y =>
    (List.range width).mapM fun x => do
      let neighbors ← neighborCountChk b height width y x
      let c ← cellChk b y x
      pure (if c ∧ neighbors > 1 ∧ neighbors < 4 then true
            else if (¬ c) ∧ neighbors = 3 then true
            else false)

/-- The glyph row of `print_board` with every index access checked
(`board[0].len()` bounds the column loop; cells are read at rows `y` and
`y + 1`). -/
def rowCharsChk (b : Grid) (y : Nat) : Option (List Char) := do
  let row0 ← b[0]?
  (List.range row0.length).mapM fun x =>
    if y + 1 ≠ b.length then do
      let top ← cellChk b y x
      let bot ← cellChk b (y + 1) x
      pure (pairGlyph top bot)
    else do
      let top ← cellChk b y x
      pure (soloGlyph top)

/-- The buffer loop of `print_board` with checked accesses. -/
def printBufferChk (b : Grid) : Nat → Option (List Char)
  | 0 => some []
  | n + 1 => do
    let pre ← printBufferChk b n
    if n % 2 = 0 then do
      let rc ← rowCharsChk b n
      pure (pre ++ (if n > 0 then ['\n'] else []) ++ rc)
    else pure pre

/-- `print_board` with every index access checked: the capacity expression
`board.len() * board[0].len()` reads `board[0]` unconditionally before the
loop. -/
def print_boardChk (b : Grid) : Option (List Char) := do
  let row0 ← b[0]?
  let _ := b.length * row0.length
  printBufferChk b b.length

/-- The population loop of `print_stats` with every index access checked
(`board[0].len()` is re-read inside the row loop, so a zero-row board
performs no access at all). -/
def statsPopulationChk (b : Grid) : Option Nat :=
  (List.range b.length).foldlM
    (fun pop y => do
      let row0 ← b[0]?
      (List.range row0.length).foldlM
        (fun pop x => do
          let c ← cellChk b y x
          pure (if c then (pop + 1) % 2 ^ 32 else pop))
        pop)
    0

/-! ## Helper lemmas -/

/-- Reading a cell of a grid built by mapping over row and column ranges
yields the generating function, for in-range coordinates. -/
theorem cell_grid_map (f : Nat → Nat → Bool) (h w y x : Nat) (hy : y < h)
    (hx : x < w) :
    cell ((List.range h).map fun y => (List.range w).map fun x => f y x) y x
      = f y x := by
  have h1 : ((List.range h).map fun y => (List.range w).map fun x => f y x)[y]?
      = some ((List.range w).map fun x => f y x) := by
    rw [List.getElem?_map, List.getElem?_range hy, Option.map_some']
  have h2 : ((List.range w).map fun x => f y x)[x]? = some (f y x) := by
    rw [List.getElem?_map, List.getElem?_range hx, Option.map_some']
  simp only [cell, List.getD_eq_getElem?_getD, h1, Option.getD_some, h2]

/-- Under the shape invariant with at least one row, `board[0].len()` is the
configured width. -/
theorem width_row0 (w h : Nat) (b : Grid) (hh : 1 ≤ h) (hs : Shaped w h b) :
    (b.getD 0 []).length = w := by
  obtain ⟨hlen, hrows⟩ := hs
  cases b with
  | nil => simp at hlen; omega
  | cons r t => simpa using hrows r (by simp)

/-- `random_board` satisfies the shape invariant for its arguments. -/
theorem random_board_shaped (w h : Nat) (rng : Nat → Bool) :
    Shaped w h (random_board w h rng) := by
  constructor
  · simp [random_board]
  · intro r hr
    simp only [random_board, List.mem_map, List.mem_range] at hr
    obtain ⟨y, hy, rfl⟩ := hr
    simp

/-- `iterate_board` preserves the shape invariant. -/
theorem iterate_board_shaped (w h : Nat) (b : Grid) (hh : 1 ≤ h)
    (hs : Shaped w h b) : Shaped w h (iterate_board b) := by
  constructor
  · simp [iterate_board, hs.1]
  · intro r hr
    simp only [iterate_board, List.mem_map, List.mem_range] at hr
    obtain ⟨y, hy, rfl⟩ := hr
    simp only [List.length_map, List.length_range]
    exact width_row0 w h b hh hs

/-- When the key is present, `histInsert` returns the stored value and the
updated map stores the new value under that key. -/
theorem histInsert_found (hmap : History) (k : List Bool) (v v0 : Nat)
    (hp : histLookup hmap k = some v0) :
    (histInsert hmap k v).1 = some v0
      ∧ histLookup (histInsert hmap k v).2 k = some v := by
  induction hmap with
  | nil => simp [histLookup] at hp
  | cons e rest ih =>
    obtain ⟨k', v'⟩ := e
    by_cases hk : k' = k
    · subst hk
      have hp' : v' = v0 := by simpa [histLookup] using hp
      simp [histInsert, histLookup, hp']
    · simp only [histLookup, if_neg hk] at hp
      have h2 := ih hp
      simp [histInsert, histLookup, hk, h2.1, h2.2]

/-! ## C1: what `detect_loop` returns and stores on a repeated fingerprint -/

/-- C1 counterexample: the claim that the history entry still maps to the
first-seen generation after a repeat, and that every later occurrence
returns the first-seen generation, is false.  On the board `[[true]]`
first recorded at generation 0, a repeat at generation 5 returns `some 0`
but overwrites the stored entry with 5; a further repeat at generation 9
then returns `some 5`, not `some 0`. -/
theorem detect_loop_first_seen_not_preserved :
    (detect_loop [[true]] 5 (detect_loop [[true]] 0 []).2).1 = some 0
    ∧ histLookup (detect_loop [[true]] 5 (detect_loop [[true]] 0 []).2).2
        (fingerprint [[true]]) = some 5
    ∧ ¬ histLookup (detect_loop [[true]] 5 (detect_loop [[true]] 0 []).2).2
        (fingerprint [[true]]) = some 0
    ∧ (detect_loop [[true]] 9
        (detect_loop [[true]] 5 (detect_loop [[true]] 0 []).2).2).1 = some 5
    ∧ ¬ (detect_loop [[true]] 9
        (detect_loop [[true]] 5 (detect_loop [[true]] 0 []).2).2).1 = some 0 := by
  decide

/-- C1 (amended): for every history and every grid whose fingerprint is
already stored with generation `g0`, `detect_loop` at generation `g`
returns `some g0` (the previously stored generation), but the stored
mapping is overwritten: after the call the history entry for that
fingerprint maps to `g`, the generation of the latest occurrence. -/
theorem detect_loop_returns_stored (b : Grid) (g g0 : Nat) (hmap : History)
    (hp : histLookup hmap (fingerprint b) = some g0) :
    (detect_loop b g hmap).1 = some g0
      ∧ histLookup (detect_loop b g hmap).2 (fingerprint b) = some g :=
  histInsert_found hmap (fingerprint b) g g0 hp

/-- C1 witness: the amended theorem applied to the board `[[true]]`, a
history storing its fingerprint at generation 0, and a repeat at
generation 5. -/
theorem detect_loop_returns_stored_witness :
    (detect_loop [[true]] 5 [([true], 0)]).1 = some 0
      ∧ histLookup (detect_loop [[true]] 5 [([true], 0)]).2
          (fingerprint [[true]]) = some 5 :=
  detect_loop_returns_stored [[true]] 5 0 [([true], 0)] (by decide)

/-! ## C2: fingerprint equality -/

/-- C2 counterexample: fingerprints do not record dimensions, so two grids
of different dimensions (1 row of 2 cells versus 2 rows of 1 cell) produce
equal fingerprints, refuting the claim that grids of different dimensions
never collide. -/
theorem fingerprint_different_dims_collide :
    fingerprint [[true, false]] = fingerprint [[true], [false]]
    ∧ Shaped 2 1 [[true, false]]
    ∧ Shaped 1 2 [[true], [false]]
    ∧ ([[true, false]] : Grid).length ≠ ([[true], [false]] : Grid).length := by
  decide

/-- Row-major flattening is injective on lists of rows of a common fixed
length and equal row count. -/
theorem flatten_inj_of_rows (w : Nat) :
    ∀ b1 b2 : Grid, (∀ r ∈ b1, r.length = w) → (∀ r ∈ b2, r.length = w)
      → b1.length = b2.length → b1.flatten = b2.flatten → b1 = b2 := by
  intro b1
  induction b1 with
  | nil =>
    intro b2 _ _ hlen _
    cases b2 <;> simp_all
  | cons r t ih =>
    intro b2 h1 h2 hlen hf
    cases b2 with
    | nil => simp at hlen
    | cons r2 t2 =>
      simp only [List.flatten_cons] at hf
      have hr : r.length = r2.length := by
        rw [h1 r (by simp), h2 r2 (by simp)]
      obtain ⟨hre, hte⟩ := List.append_inj hf hr
      subst hre
      have ht := ih t2 (fun a ha => h1 a (by simp [ha]))
        (fun a ha => h2 a (by simp [ha])) (by simpa using hlen) hte
      rw [ht]

/-- C2 (amended): for two grids of the same dimensions satisfying the row
invariant, fingerprints are equal iff the grids are identical (matching
cell sequences); grids of different dimensions, however, can collide (see
the counterexample), because the fingerprint is only the flattened cell
sequence. -/
theorem fingerprint_eq_iff_of_shaped (w h : Nat) (b1 b2 : Grid)
    (h1 : Shaped w h b1) (h2 : Shaped w h b2) :
    fingerprint b1 = fingerprint b2 ↔ b1 = b2 := by
  constructor
  · intro hf
    exact flatten_inj_of_rows w b1 b2 h1.2 h2.2 (h1.1.trans h2.1.symm) hf
  · intro he
    rw [he]

/-- C2 witness: the amended theorem applied to the two 1×1 grids. -/
theorem fingerprint_eq_iff_of_shaped_witness :
    Shaped 1 1 [[true]] ∧ Shaped 1 1 [[false]]
    ∧ (fingerprint [[true]] = fingerprint [[false]]
        ↔ ([[true]] : Grid) = [[false]]) :=
  ⟨by decide, by decide,
    fingerprint_eq_iff_of_shaped 1 1 [[true]] [[false]] (by decide) (by decide)⟩

/-! ## C5: the blinker scenario -/

/-- C5: one step of the vertical blinker yields exactly the horizontal
blinker, whose fingerprint differs from the original; a second step
returns the original grid; and after the generation-0 and generation-1
fingerprints have been recorded, `detect_loop` at generation 2 reports a
cycle starting at generation 0. -/
theorem blinker_cycle :
    iterate_board blinkerV = blinkerH
    ∧ fingerprint blinkerH ≠ fingerprint blinkerV
    ∧ iterate_board blinkerH = blinkerV
    ∧ (detect_loop (iterate_board (iterate_board blinkerV)) 2
        (detect_loop (iterate_board blinkerV) 1
          (detect_loop blinkerV 0 []).2).2).1 = some 0 := by
  decide

/-! ## C6: infinite-mode reset -/

/-- C6: in infinite mode, whenever `detect_loop` reports a cycle the
scheduler's next state has generation 0, an empty history, and a freshly
seeded board of the configured dimensions; and `detect_loop` on that new
board against the empty history reports no cycle. -/
theorem infinite_mode_reset (width height : Nat) (rng : Nat → Bool)
    (s : SimState) (L : Nat)
    (hdet : (detect_loop s.board s.generation s.history).1 = some L) :
    sched_step true width height rng s
      = .next ⟨random_board width height rng, 0, []⟩
    ∧ Shaped width height (random_board width height rng)
    ∧ (detect_loop (random_board width height rng) 0 []).1 = none := by
  refine ⟨?_, random_board_shaped width height rng, ?_⟩
  · unfold sched_step
    rcases hd : detect_loop s.board s.generation s.history with ⟨o, h2⟩
    rw [hd] at hdet
    simp only at hdet
    subst hdet
    simp
  · simp [detect_loop, histInsert]

/-- C6 witness: the reset theorem applied to a 1×1 state whose fingerprint
is already recorded. -/
theorem infinite_mode_reset_witness :
    (detect_loop (SimState.mk [[true]] 5 [([true], 0)]).board
        (SimState.mk [[true]] 5 [([true], 0)]).generation
        (SimState.mk [[true]] 5 [([true], 0)]).history).1 = some 0
    ∧ (sched_step true 1 1 (fun _ => false) (SimState.mk [[true]] 5 [([true], 0)])
        = .next ⟨random_board 1 1 (fun _ => false), 0, []⟩
      ∧ Shaped 1 1 (random_board 1 1 (fun _ => false))
      ∧ (detect_loop (random_board 1 1 (fun _ => false)) 0 []).1 = none) :=
  ⟨by decide,
    infinite_mode_reset 1 1 (fun _ => false)
      (SimState.mk [[true]] 5 [([true], 0)]) 0 (by decide)⟩

/-! ## C7: the grid-shape invariant -/

/-- C7: `random_board` establishes the shape invariant (exactly `height`
rows of exactly `width` cells each), and `iterate_board` preserves it. -/
theorem grid_shape_invariant (w h : Nat) (rng : Nat → Bool) (b : Grid)
    (hw : 1 ≤ w) (hh : 1 ≤ h) (hs : Shaped w h b) :
    Shaped w h (random_board w h rng) ∧ Shaped w h (iterate_board b) :=
  ⟨random_board_shaped w h rng, iterate_board_shaped w h b hh hs⟩

/-- C7 witness: the invariant theorem applied to a 1×1 board and a constant
random source. -/
theorem grid_shape_invariant_witness :
    (1 : Nat) ≤ 1 ∧ Shaped 1 1 [[true]]
    ∧ (Shaped 1 1 (random_board 1 1 (fun _ => true))
        ∧ Shaped 1 1 (iterate_board [[true]])) :=
  ⟨by decide, by decide,
    grid_shape_invariant 1 1 (fun _ => true) [[true]] (by decide) (by decide)
      (by decide)⟩

/-! ## C8: frame pacing -/

/-- Closed form of the additive deadline scheme. -/
theorem deadline_after_eq (d0 frame_time : Nat) :
    ∀ n, deadline_after d0 frame_time n = d0 + n * frame_time := by
  intro n
  induction n with
  | zero => simp [deadline_after]
  | succ m ih =>
    simp only [deadline_after, next_deadline, ih]
    ring

/-- C8: the pacing sleep never ends before the deadline (for any extra OS
lateness); when the deadline is already past, `checked_duration_since`
forms no duration and no sleep happens; any duration formed is exactly the
non-negative gap to the deadline; and each iteration's deadline is the
previous deadline plus the frame interval, giving the purely additive
closed form with no catch-up. -/
theorem pacing_never_early (deadline now lateness delay d0 frame_time n : Nat) :
    deadline ≤ sleep_until deadline now lateness
    ∧ (deadline < now →
        checked_duration_since deadline now = none
        ∧ sleep_until deadline now lateness = now)
    ∧ (checked_duration_since deadline now = some delay →
        now + delay = deadline)
    ∧ deadline_after d0 frame_time (n + 1)
        = deadline_after d0 frame_time n + frame_time
    ∧ deadline_after d0 frame_time n = d0 + n * frame_time := by
  refine ⟨?_, ?_, ?_, rfl, deadline_after_eq d0 frame_time n⟩
  · by_cases hc : now ≤ deadline
    · simp only [sleep_until, checked_duration_since, if_pos hc]
      omega
    · simp only [sleep_until, checked_duration_since, if_neg hc]
      omega
  · intro hlt
    have hc : ¬ now ≤ deadline := by omega
    simp only [sleep_until, checked_duration_since, if_neg hc]
    exact ⟨trivial, trivial⟩
  · intro hdel
    by_cases hc : now ≤ deadline
    · rw [checked_duration_since, if_pos hc] at hdel
      have : deadline - now = delay := by injection hdel
      omega
    · rw [checked_duration_since, if_neg hc] at hdel
      cases hdel

/-- C8 witness: the pacing theorem applied at deadline 3, now 7 (deadline
already past), and at deadline 9, now 4 (a duration of 5 is formed). -/
theorem pacing_never_early_witness :
    (3 : Nat) < 7
    ∧ (checked_duration_since 3 7 = none ∧ sleep_until 3 7 2 = 7)
    ∧ checked_duration_since 9 4 = some 5
    ∧ 4 + 5 = 9 :=
  ⟨by decide, (pacing_never_early 3 7 2 0 0 0 0).2.1 (by decide), by decide,
    (pacing_never_early 9 4 0 5 0 0 0).2.2.1 (by decide)⟩

/-! ## C3: the transition rule of `iterate_board` -/

/-- A counting fold with a decidable test equals an initial value plus a
`countP`. -/
theorem foldl_if_count {α : Type} (p : α → Prop) [DecidablePred p] :
    ∀ (l : List α) (n : Nat),
      l.foldl (fun n a => if p a then n + 1 else n) n
        = n + l.countP fun a => decide (p a) := by
  intro l
  induction l with
  | nil => intro n; simp
  | cons a t ih =>
    intro n
    rw [List.foldl_cons, List.countP_cons, ih]
    by_cases hpa : p a <;> simp [hpa] <;> omega

/-- The neighbor loop counts exactly the offsets whose position is in range
with an alive cell. -/
theorem neighborCount_eq_countP (b : Grid) (h w y x : Nat) :
    neighborCount b h w y x
      = NEIGHBOR_OFFSETS.countP fun off =>
          decide (neighborAlive b h w y x off) := by
  unfold neighborCount
  rw [foldl_if_count (neighborAlive b h w y x) NEIGHBOR_OFFSETS 0]
  simp

/-- Out-of-range offsets contribute nothing: the neighbor count is bounded
by the number of candidate (in-range) offsets. -/
theorem neighborCount_le_candidateCount (b : Grid) (h w y x : Nat) :
    neighborCount b h w y x ≤ candidateCount h w y x := by
  rw [neighborCount_eq_countP]
  unfold candidateCount
  apply List.countP_mono_left
  intro off _ hoff
  simp only [decide_eq_true_eq] at hoff ⊢
  exact hoff.1

/-- A corner cell has at most 3 candidate neighbors. -/
theorem candidateCount_corner (h w y x : Nat) (hh : 1 ≤ h) (hw : 1 ≤ w)
    (hy : y < h) (hx : x < w)
    (hc : (y = 0 ∨ y = h - 1) ∧ (x = 0 ∨ x = w - 1)) :
    candidateCount h w y x ≤ 3 := by
  unfold candidateCount NEIGHBOR_OFFSETS
  simp only [List.countP_cons, List.countP_nil, offsetInRange,
    decide_eq_true_eq]
  split_ifs <;> omega

/-- A non-corner edge cell has at most 5 candidate neighbors. -/
theorem candidateCount_edge (h w y x : Nat) (hh : 1 ≤ h) (hw : 1 ≤ w)
    (hy : y < h) (hx : x < w)
    (he : y = 0 ∨ y = h - 1 ∨ x = 0 ∨ x = w - 1)
    (hnc : ¬ ((y = 0 ∨ y = h - 1) ∧ (x = 0 ∨ x = w - 1))) :
    candidateCount h w y x ≤ 5 := by
  unfold candidateCount NEIGHBOR_OFFSETS
  simp only [List.countP_cons, List.countP_nil, offsetInRange,
    decide_eq_true_eq]
  split_ifs <;> omega

/-- The successor cell is the branch expression of the source, with the
dimensions rewritten through the shape invariant. -/
theorem iterate_board_cell (w h : Nat) (b : Grid) (hh : 1 ≤ h)
    (hs : Shaped w h b) (y x : Nat) (hy : y < h) (hx : x < w) :
    cell (iterate_board b) y x
      = (if cell b y x ∧ neighborCount b h w y x > 1
            ∧ neighborCount b h w y x < 4 then true
         else if (¬ cell b y x) ∧ neighborCount b h w y x = 3 then true
         else false) := by
  have hb : b.length = h := hs.1
  have hwid : (b.getD 0 []).length = w := width_row0 w h b hh hs
  simp only [iterate_board]
  rw [hb, hwid]
  exact cell_grid_map _ h w y x hy hx

/-- C3: for every shaped grid with positive dimensions and every in-range
cell, the successor cell is alive iff the cell was alive with neighbor
count 2 or 3, or dead with neighbor count exactly 3; the neighbor count is
bounded by the number of in-range candidate offsets, which is at most 3
for a corner cell and at most 5 for a non-corner edge cell (no
wraparound). -/
theorem iterate_board_rule (w h : Nat) (b : Grid) (hw : 1 ≤ w) (hh : 1 ≤ h)
    (hs : Shaped w h b) (y x : Nat) (hy : y < h) (hx : x < w) :
    (cell (iterate_board b) y x = true ↔
      ((cell b y x = true
          ∧ (neighborCount b h w y x = 2 ∨ neighborCount b h w y x = 3))
        ∨ (cell b y x = false ∧ neighborCount b h w y x = 3)))
    ∧ neighborCount b h w y x ≤ candidateCount h w y x
    ∧ ((y = 0 ∨ y = h - 1) ∧ (x = 0 ∨ x = w - 1)
        → candidateCount h w y x ≤ 3)
    ∧ ((y = 0 ∨ y = h - 1 ∨ x = 0 ∨ x = w - 1)
        → ¬ ((y = 0 ∨ y = h - 1) ∧ (x = 0 ∨ x = w - 1))
        → candidateCount h w y x ≤ 5) := by
  refine ⟨?_, neighborCount_le_candidateCount b h w y x,
    fun hc => candidateCount_corner h w y x hh hw hy hx hc,
    fun he hnc => candidateCount_edge h w y x hh hw hy hx he hnc⟩
  rw [iterate_board_cell w h b hh hs y x hy hx]
  cases hcb : cell b y x <;> simp [hcb] <;> omega

/-- C3 witness: the transition-rule theorem applied to the 2×2 grid with
diagonal cells alive, at cell `(0, 0)`. -/
theorem iterate_board_rule_witness :
    (1 : Nat) ≤ 2 ∧ Shaped 2 2 [[true, false], [false, true]]
    ∧ (0 : Nat) < 2
    ∧ ((cell (iterate_board [[true, false], [false, true]]) 0 0 = true ↔
        ((cell [[true, false], [false, true]] 0 0 = true
            ∧ (neighborCount [[true, false], [false, true]] 2 2 0 0 = 2
              ∨ neighborCount [[true, false], [false, true]] 2 2 0 0 = 3))
          ∨ (cell [[true, false], [false, true]] 0 0 = false
              ∧ neighborCount [[true, false], [false, true]] 2 2 0 0 = 3)))
      ∧ neighborCount [[true, false], [false, true]] 2 2 0 0
          ≤ candidateCount 2 2 0 0
      ∧ (((0 : Nat) = 0 ∨ (0 : Nat) = 2 - 1) ∧ ((0 : Nat) = 0 ∨ (0 : Nat) = 2 - 1)
          → candidateCount 2 2 0 0 ≤ 3)
      ∧ (((0 : Nat) = 0 ∨ (0 : Nat) = 2 - 1 ∨ (0 : Nat) = 0 ∨ (0 : Nat) = 2 - 1)
          → ¬ (((0 : Nat) = 0 ∨ (0 : Nat) = 2 - 1)
              ∧ ((0 : Nat) = 0 ∨ (0 : Nat) = 2 - 1))
          → candidateCount 2 2 0 0 ≤ 5)) :=
  ⟨by decide, by decide, by decide,
    iterate_board_rule 2 2 [[true, false], [false, true]] (by decide)
      (by decide) (by decide) 0 0 (by decide) (by decide)⟩

/-! ## C10: the statistics line -/

/-- Under the shape invariant, every in-range row has the configured
width. -/
theorem row_length (w h : Nat) (b : Grid) (hs : Shaped w h b) (y : Nat)
    (hy : y < b.length) : (b.getD y []).length = w := by
  rw [List.getD_eq_getElem b [] hy]
  exact hs.2 b[y] (List.getElem_mem hy)

/-- The inner population loop over one row: starting below `2 ^ 32`, after
scanning the first `n` cells the accumulator is the count so far, reduced
modulo `2 ^ 32`. -/
theorem popRow_eq (r : List Bool) :
    ∀ n, n ≤ r.length → ∀ pop, pop < 2 ^ 32 →
      (List.range n).foldl
        (fun p x => if r.getD x false then (p + 1) % 2 ^ 32 else p) pop
        = (pop + (r.take n).count true) % 2 ^ 32 := by
  intro n
  induction n with
  | zero =>
    intro _ pop hp
    simp only [List.range_zero, List.foldl_nil, List.take_zero,
      List.count_nil, Nat.add_zero]
    exact (Nat.mod_eq_of_lt hp).symm
  | succ m ih =>
    intro hm pop hp
    rw [List.range_succ, List.foldl_append, ih (by omega) pop hp]
    simp only [List.foldl_cons, List.foldl_nil]
    have hmr : m < r.length := by omega
    rw [List.take_succ, List.getElem?_eq_getElem hmr,
      List.getD_eq_getElem r false hmr]
    simp only [Option.toList_some, List.count_append, List.count_singleton]
    cases hc : r[m] <;> simp [hc] <;> omega

/-- The outer population loop: after scanning the first `n` rows the
accumulator is the alive count of those rows, reduced modulo `2 ^ 32`. -/
theorem popGrid_eq (w h : Nat) (b : Grid) (hs : Shaped w h b) :
    ∀ n, n ≤ b.length → ∀ pop, pop < 2 ^ 32 →
      (List.range n).foldl
        (fun pop y =>
          (List.range (b.getD 0 []).length).foldl
            (fun pop x => if cell b y x then (pop + 1) % 2 ^ 32 else pop)
            pop)
        pop
        = (pop + (b.take n).flatten.count true) % 2 ^ 32 := by
  intro n
  induction n with
  | zero =>
    intro _ pop hp
    simp only [List.range_zero, List.foldl_nil, List.take_zero,
      List.flatten_nil, List.count_nil, Nat.add_zero]
    exact (Nat.mod_eq_of_lt hp).symm
  | succ m ih =>
    intro hm pop hp
    rw [List.range_succ, List.foldl_append, ih (by omega) pop hp]
    simp only [List.foldl_cons, List.foldl_nil, cell]
    have hms : m < b.length := by omega
    have hrow : (b.getD 0 []).length = (b.getD m []).length := by
      rw [row_length w h b hs m hms, row_length w h b hs 0 (by omega)]
    rw [hrow,
      popRow_eq (b.getD m []) (b.getD m []).length le_rfl _
        (Nat.mod_lt _ (by norm_num)),
      List.take_length, Nat.mod_add_mod]
    rw [List.take_succ, List.getElem?_eq_getElem hms]
    have hg : b.getD m [] = b[m] := List.getD_eq_getElem b [] hms
    rw [hg]
    simp only [Option.toList_some, List.flatten_append, List.flatten_cons,
      List.flatten_nil, List.append_nil, List.count_append]
    rw [Nat.add_assoc]

/-- The population accumulator of `print_stats` computes the alive count
modulo `2 ^ 32`. -/
theorem statsPopulation_eq (w h : Nat) (b : Grid) (hs : Shaped w h b) :
    statsPopulation b = aliveCount b % 2 ^ 32 := by
  have hmain := popGrid_eq w h b hs b.length le_rfl 0 (by norm_num)
  unfold statsPopulation aliveCount
  rw [hmain, List.take_length]
  simp

/-- C10 counterexample: on a shaped 1-row grid with `2 ^ 32` alive cells
the `u32` population accumulator wraps to 0, so the printed Population
does not equal the number of alive cells. -/
theorem statsPopulation_overflow :
    Shaped (2 ^ 32) 1 [List.replicate (2 ^ 32) true]
    ∧ aliveCount [List.replicate (2 ^ 32) true] = 2 ^ 32
    ∧ statsPopulation [List.replicate (2 ^ 32) true] = 0
    ∧ statsPopulation [List.replicate (2 ^ 32) true]
        ≠ aliveCount [List.replicate (2 ^ 32) true] := by
  have hshape : Shaped (2 ^ 32) 1 [List.replicate (2 ^ 32) true] := by
    constructor
    · rfl
    · intro r hr
      simp only [List.mem_singleton] at hr
      rw [hr, List.length_replicate]
  have hcount : aliveCount [List.replicate (2 ^ 32) true] = 2 ^ 32 := by
    unfold aliveCount
    rw [List.flatten_cons, List.flatten_nil, List.append_nil,
      List.count_replicate, if_pos (by rfl)]
  have hpop : statsPopulation [List.replicate (2 ^ 32) true] = 0 := by
    rw [statsPopulation_eq (2 ^ 32) 1 _ hshape, hcount, Nat.mod_self]
  refine ⟨hshape, hcount, hpop, ?_⟩
  rw [hpop, hcount]
  norm_num

/-- C10 (amended): for every shaped grid, the Population value printed by
`print_stats` is the number of alive cells reduced modulo `2 ^ 32` — hence
exactly the number of alive cells whenever fewer than `2 ^ 32` cells are
alive — and the Generation line carries exactly the generation counter
passed in (the function reads the board and counter without modifying
them). -/
theorem print_stats_correct (w h g : Nat) (b : Grid) (hs : Shaped w h b) :
    statsPopulation b = aliveCount b % 2 ^ 32
    ∧ (aliveCount b < 2 ^ 32 → statsPopulation b = aliveCount b)
    ∧ print_stats b g
        = ["Generation: " ++ toString g,
           "Population: " ++ toString (statsPopulation b)] := by
  refine ⟨statsPopulation_eq w h b hs, ?_, rfl⟩
  intro hlt
  rw [statsPopulation_eq w h b hs, Nat.mod_eq_of_lt hlt]

/-- C10 witness: the amended theorem applied to a 2×1 grid with one alive
cell at generation 7. -/
theorem print_stats_correct_witness :
    Shaped 2 1 [[true, false]]
    ∧ (statsPopulation [[true, false]] = aliveCount [[true, false]] % 2 ^ 32
      ∧ (aliveCount [[true, false]] < 2 ^ 32 →
          statsPopulation [[true, false]] = aliveCount [[true, false]])
      ∧ print_stats [[true, false]] 7
          = ["Generation: " ++ toString 7,
             "Population: " ++ toString (statsPopulation [[true, false]])]) :=
  ⟨by decide, print_stats_correct 2 1 7 [[true, false]] (by decide)⟩

/-! ## C4: the renderer layout -/

/-- Reading an element of a range-mapped list yields the generating
function, for an in-range index. -/
theorem getD_map_range {α : Type} (f : Nat → α) (w x : Nat) (hx : x < w)
    (d : α) : ((List.range w).map f).getD x d = f x := by
  rw [List.getD_eq_getElem?_getD, List.getElem?_map, List.getElem?_range hx,
    Option.map_some', Option.getD_some]

/-- Appending one more line to a non-empty join inserts one separator. -/
theorem joinLines_append (ls : List (List Char)) (a : List Char)
    (hne : ls ≠ []) :
    joinLines (ls ++ [a]) = joinLines ls ++ '\n' :: a := by
  induction ls with
  | nil => exact absurd rfl hne
  | cons l t ih =>
    cases t with
    | nil => simp [joinLines]
    | cons l' t' =>
      have h2 := ih (by simp)
      simp only [List.cons_append, joinLines, List.append_eq] at h2 ⊢
      rw [h2]
      simp

/-- The buffer accumulated by `print_board` over the first `n` rows is the
join of the glyph rows for the even indices below `n`. -/
theorem printBuffer_eq_joinLines (b : Grid) :
    ∀ n, printBuffer b n
      = joinLines ((List.range ((n + 1) / 2)).map fun k => rowChars b (2 * k)) := by
  intro n
  induction n with
  | zero => simp [printBuffer, joinLines]
  | succ m ih =>
    simp only [printBuffer]
    rw [ih]
    rcases Nat.even_or_odd m with ⟨j, hj⟩ | ⟨j, hj⟩
    · have hm0 : m % 2 = 0 := by omega
      have h1 : (m + 1 + 1) / 2 = j + 1 := by omega
      have h2 : (m + 1) / 2 = j := by omega
      have hm2 : 2 * j = m := by omega
      rw [if_pos hm0, h1, h2, List.range_succ, List.map_append]
      simp only [List.map_cons, List.map_nil]
      rcases Nat.eq_zero_or_pos j with rfl | hj0
      · have hm0' : m = 0 := by omega
        subst hm0'
        simp [joinLines]
      · have hne : (List.range j).map (fun k => rowChars b (2 * k)) ≠ [] := by
          simp only [ne_eq, List.map_eq_nil_iff, List.range_eq_nil]
          omega
        rw [joinLines_append _ _ hne, if_pos (show m > 0 by omega), hm2]
        simp
    · have hm1 : ¬ m % 2 = 0 := by omega
      have h3 : (m + 1 + 1) / 2 = (m + 1) / 2 := by omega
      rw [if_neg hm1, List.append_nil, h3]

/-- C4: under the shape invariant the render buffer is exactly
`ceil(height / 2)` glyph rows joined by single newlines; each paired row
group maps column `x` through the four-glyph table on
`(board[2k][x], board[2k+1][x])`, and an odd trailing row maps alive to
the upper-half block and dead to a blank. -/
theorem print_board_renders (w h : Nat) (b : Grid) (hw : 1 ≤ w)
    (hh : 1 ≤ h) (hs : Shaped w h b) (k x : Nat) (hk : k < (h + 1) / 2)
    (hx : x < w) :
    print_board b
      = joinLines ((List.range ((h + 1) / 2)).map fun j => rowChars b (2 * j))
    ∧ ((List.range ((h + 1) / 2)).map fun j => rowChars b (2 * j)).length
        = (h + 1) / 2
    ∧ (rowChars b (2 * k)).length = w
    ∧ (rowChars b (2 * k)).getD x ' '
        = (if 2 * k + 1 < h then
             pairGlyph (cell b (2 * k) x) (cell b (2 * k + 1) x)
           else soloGlyph (cell b (2 * k) x)) := by
  have hbl : b.length = h := hs.1
  have hwid : (b.getD 0 []).length = w := width_row0 w h b hh hs
  refine ⟨?_, by simp, ?_, ?_⟩
  · unfold print_board
    rw [printBuffer_eq_joinLines b b.length, hbl]
  · unfold rowChars
    simp only [List.length_map, List.length_range]
    exact hwid
  · unfold rowChars
    rw [hwid, getD_map_range _ w x hx ' ']
    by_cases hlt : 2 * k + 1 < h
    · rw [if_pos hlt, if_pos (show 2 * k + 1 ≠ b.length by omega)]
    · have hend : 2 * k + 1 = h := by omega
      rw [if_neg hlt, if_neg (show ¬ 2 * k + 1 ≠ b.length by omega)]

/-- C4 witness: the renderer theorem applied to a 2×3 grid (one paired
group and one odd trailing row), at line 1, column 0. -/
theorem print_board_renders_witness :
    (1 : Nat) ≤ 2 ∧ (1 : Nat) ≤ 3
    ∧ Shaped 2 3 [[true, false], [false, true], [true, true]]
    ∧ (1 : Nat) < (3 + 1) / 2 ∧ (0 : Nat) < 2
    ∧ (print_board [[true, false], [false, true], [true, true]]
        = joinLines ((List.range ((3 + 1) / 2)).map fun j =>
            rowChars [[true, false], [false, true], [true, true]] (2 * j))
      ∧ ((List.range ((3 + 1) / 2)).map fun j =>
            rowChars [[true, false], [false, true], [true, true]] (2 * j)).length
          = (3 + 1) / 2
      ∧ (rowChars [[true, false], [false, true], [true, true]] (2 * 1)).length = 2
      ∧ (rowChars [[true, false], [false, true], [true, true]] (2 * 1)).getD 0 ' '
          = (if 2 * 1 + 1 < 3 then
               pairGlyph (cell [[true, false], [false, true], [true, true]] (2 * 1) 0)
                 (cell [[true, false], [false, true], [true, true]] (2 * 1 + 1) 0)
             else soloGlyph (cell [[true, false], [false, true], [true, true]] (2 * 1) 0))) :=
  ⟨by decide, by decide, by decide, by decide, by decide,
    print_board_renders 2 3 [[true, false], [false, true], [true, true]]
      (by decide) (by decide) (by decide) 1 0 (by decide) (by decide)⟩

/-! ## C9: index safety -/

/-- A monadic map over `Option` succeeds with the pure map when every
element succeeds. -/
theorem mapM_option_of_forall {α β : Type} (f : α → Option β) (g : α → β) :
    ∀ l : List α, (∀ a ∈ l, f a = some (g a)) → l.mapM f = some (l.map g) := by
  intro l
  induction l with
  | nil => intro _; rfl
  | cons a t ih =>
    intro hfa
    rw [List.mapM_cons, hfa a (by simp), ih (fun a ha => hfa a (by simp [ha]))]
    rfl

/-- A monadic fold over `Option` succeeds with the pure fold when every
step succeeds. -/
theorem foldlM_option_of_forall {α β : Type} (f : β → α → Option β)
    (g : β → α → β) :
    ∀ l : List α, (∀ b a, a ∈ l → f b a = some (g b a)) →
      ∀ init, l.foldlM f init = some (l.foldl g init) := by
  intro l
  induction l with
  | nil => intro _ init; rfl
  | cons a t ih =>
    intro hfa init
    rw [List.foldlM_cons, hfa init a (by simp)]
    exact ih (fun b a ha => hfa b a (by simp [ha])) (g init a)

/-- The checked cell read agrees with the total one when both indices are
in bounds. -/
theorem cellChk_eq (b : Grid) (y x : Nat) (hy : y < b.length)
    (hx : x < (b.getD y []).length) :
    cellChk b y x = some (cell b y x) := by
  have hby : b.getD y [] = b[y] := List.getD_eq_getElem b [] hy
  rw [hby] at hx
  unfold cellChk cell
  rw [List.getElem?_eq_getElem hy, hby,
    List.getD_eq_getElem b[y] false hx]
  show b[y][x]? = some b[y][x]
  exact List.getElem?_eq_getElem hx

/-- The checked neighbor loop always succeeds on a shaped board (every
cell read sits behind the in-range guard) and agrees with the total
count. -/
theorem neighborCountChk_eq (w h : Nat) (b : Grid) (hs : Shaped w h b)
    (y x : Nat) :
    neighborCountChk b h w y x = some (neighborCount b h w y x) := by
  unfold neighborCountChk neighborCount
  apply foldlM_option_of_forall
  intro n off _
  by_cases hin : offsetInRange h w y x off
  · have hin2 := hin
    unfold offsetInRange at hin2
    obtain ⟨hy0, hx0, hyh, hxw⟩ := hin2
    have hy' : ((y : Int) + off.1).toNat < b.length := by
      rw [hs.1]; omega
    have hx' : ((x : Int) + off.2).toNat < (b.getD ((y : Int) + off.1).toNat []).length := by
      rw [row_length w h b hs _ hy']; omega
    rw [if_pos hin, cellChk_eq b _ _ hy' hx']
    show some _ = some _
    congr 1
    by_cases hc :
        cell b ((y : Int) + off.1).toNat ((x : Int) + off.2).toNat = true
    · rw [if_pos hc, if_pos (show neighborAlive b h w y x off from ⟨hin, hc⟩)]
    · rw [if_neg hc, if_neg (fun hna : neighborAlive b h w y x off => hc hna.2)]
  · rw [if_neg hin, if_neg (fun hna : neighborAlive b h w y x off => hin hna.1)]
    rfl

/-- The checked `iterate_board` agrees with the total one on shaped
boards. -/
theorem iterate_boardChk_eq (w h : Nat) (b : Grid) (hh : 1 ≤ h)
    (hs : Shaped w h b) : iterate_boardChk b = some (iterate_board b) := by
  have h0 : 0 < b.length := by rw [hs.1]; omega
  have hb0 : (b.getD 0 []) = b[0] := List.getD_eq_getElem b [] h0
  have hw0 : (b[0] : List Bool).length = w := by
    rw [← hb0]; exact width_row0 w h b hh hs
  unfold iterate_boardChk iterate_board
  rw [List.getElem?_eq_getElem h0]
  show (List.range b.length).mapM _ = some _
  rw [hb0, hw0, hs.1]
  apply mapM_option_of_forall
  intro y hy
  apply mapM_option_of_forall
  intro x hx
  have hyb : y < b.length := by rw [hs.1]; exact List.mem_range.mp hy
  have hxw : x < (b.getD y []).length := by
    rw [row_length w h b hs y hyb]; exact List.mem_range.mp hx
  rw [neighborCountChk_eq w h b hs y x, cellChk_eq b y x hyb hxw]
  rfl

/-- The checked glyph row agrees with the total one on shaped boards, for
an in-range row. -/
theorem rowCharsChk_eq (w h : Nat) (b : Grid) (hh : 1 ≤ h)
    (hs : Shaped w h b) (y : Nat) (hyb : y < b.length) :
    rowCharsChk b y = some (rowChars b y) := by
  have h0 : 0 < b.length := by omega
  have hb0 : (b.getD 0 []) = b[0] := List.getD_eq_getElem b [] h0
  unfold rowCharsChk rowChars
  rw [List.getElem?_eq_getElem h0]
  show (List.range (b[0] : List Bool).length).mapM _ = some _
  rw [← hb0]
  apply mapM_option_of_forall
  intro x hx
  have hxw : x < (b.getD y []).length := by
    rw [row_length w h b hs y hyb, ← width_row0 w h b hh hs]
    exact List.mem_range.mp hx
  by_cases hyl : y + 1 ≠ b.length
  · have hyb2 : y + 1 < b.length := by omega
    have hxw2 : x < (b.getD (y + 1) []).length := by
      rw [row_length w h b hs (y + 1) hyb2, ← width_row0 w h b hh hs]
      exact List.mem_range.mp hx
    rw [if_pos hyl, if_pos hyl, cellChk_eq b y x hyb hxw,
      cellChk_eq b (y + 1) x hyb2 hxw2]
    rfl
  · rw [if_neg hyl, if_neg hyl, cellChk_eq b y x hyb hxw]
    rfl

/-- The checked buffer loop agrees with the total one on shaped boards,
for any prefix of the rows. -/
theorem printBufferChk_eq (w h : Nat) (b : Grid) (hh : 1 ≤ h)
    (hs : Shaped w h b) :
    ∀ n, n ≤ b.length → printBufferChk b n = some (printBuffer b n) := by
  intro n
  induction n with
  | zero => intro _; rfl
  | succ m ih =>
    intro hm
    simp only [printBufferChk]
    rw [ih (by omega), rowCharsChk_eq w h b hh hs m (by omega)]
    show (if m % 2 = 0 then
        some ((printBuffer b m ++ (if m > 0 then ['\n'] else []))
          ++ rowChars b m)
      else some (printBuffer b m)) = some (printBuffer b (m + 1))
    by_cases hm2 : m % 2 = 0
    · rw [if_pos hm2]
      simp only [printBuffer, if_pos hm2]
      rw [List.append_assoc]
    · rw [if_neg hm2]
      simp only [printBuffer, if_neg hm2, List.append_nil]

/-- The checked `print_board` agrees with the total one on shaped
boards. -/
theorem print_boardChk_eq (w h : Nat) (b : Grid) (hh : 1 ≤ h)
    (hs : Shaped w h b) : print_boardChk b = some (print_board b) := by
  have h0 : 0 < b.length := by rw [hs.1]; omega
  unfold print_boardChk print_board
  rw [List.getElem?_eq_getElem h0]
  show printBufferChk b b.length = some (printBuffer b b.length)
  exact printBufferChk_eq w h b hh hs b.length le_rfl

/-- The checked population loop agrees with the total one on shaped
boards. -/
theorem statsPopulationChk_eq (w h : Nat) (b : Grid) (hh : 1 ≤ h)
    (hs : Shaped w h b) :
    statsPopulationChk b = some (statsPopulation b) := by
  have h0 : 0 < b.length := by rw [hs.1]; omega
  unfold statsPopulationChk statsPopulation
  apply foldlM_option_of_forall
  intro pop y hy
  rw [List.getElem?_eq_getElem h0]
  show (List.range (b[0] : List Bool).length).foldlM _ pop = some _
  rw [show (b[0] : List Bool) = b.getD 0 [] from
    (List.getD_eq_getElem b [] h0).symm]
  apply foldlM_option_of_forall
  intro p x hx
  have hyb : y < b.length := List.mem_range.mp hy
  have hxw : x < (b.getD y []).length := by
    rw [row_length w h b hs y hyb, ← width_row0 w h b hh hs]
    exact List.mem_range.mp hx
  rw [cellChk_eq b y x hyb hxw]
  rfl

/-- C9: on a zero-row grid both `iterate_board` and `print_board` hit an
out-of-bounds read of row 0 (taken unconditionally to obtain the width),
while under the shape invariant every index access of `iterate_board`,
`print_board` and `print_stats` is in bounds: the fully checked variants
succeed and agree with the total embeddings (the population scan performs
no access at all on a zero-row grid, so it is safe even there). -/
theorem index_safety (w h : Nat) (b : Grid) (hw : 1 ≤ w) (hh : 1 ≤ h)
    (hs : Shaped w h b) :
    iterate_boardChk [] = none
    ∧ print_boardChk [] = none
    ∧ iterate_boardChk b = some (iterate_board b)
    ∧ print_boardChk b = some (print_board b)
    ∧ statsPopulationChk b = some (statsPopulation b)
    ∧ statsPopulationChk [] = some 0 :=
  ⟨rfl, rfl, iterate_boardChk_eq w h b hh hs, print_boardChk_eq w h b hh hs,
    statsPopulationChk_eq w h b hh hs, rfl⟩

/-- C9 witness: the safety theorem applied to the 1×1 board `[[true]]`. -/
theorem index_safety_witness :
    (1 : Nat) ≤ 1 ∧ Shaped 1 1 [[true]]
    ∧ (iterate_boardChk [] = none
      ∧ print_boardChk [] = none
      ∧ iterate_boardChk [[true]] = some (iterate_board [[true]])
      ∧ print_boardChk [[true]] = some (print_board [[true]])
      ∧ statsPopulationChk [[true]] = some (statsPopulation [[true]])
      ∧ statsPopulationChk [] = some 0) :=
  ⟨by decide, by decide,
    index_safety 1 1 [[true]] (by decide) (by decide) (by decide)⟩

end Conway
